import Mathlib

/-!
Shallow embedding of the Genode UART session component
(os/src/drivers/uart/uart_component.h) and proofs about it.

The driver receive queue is modelled as a list of bytes: the head is the
next character the driver delivers, `char_avail` holds exactly when the
list is nonempty, and a busy-wait on an exhausted list never returns,
which the embedding records as the value `none`.  Bytes are natural
numbers below 256; the C++ `unsigned` accumulator of `_read_number`
wraps modulo 2 ^ 32, which the embedding performs explicitly.
-/

namespace Uart

/-- Capacity of the per-session I/O buffer (`enum { IO_BUFFER_SIZE = 4096 }`). -/
def IO_BUFFER_SIZE : Nat := 4096

/-- Modulus of the C++ `unsigned` arithmetic used by `_read_number`. -/
def UINT_MOD : Nat := 2 ^ 32

/-- Terminal size as in the UART session interface: `Size(width, height)`. -/
structure Size where
  w : Nat
  h : Nat
deriving DecidableEq

/-- Modelled from the spec: Genode util `is_digit` (not under src/), the
decimal-digit test used by `_read_number`; true exactly for ASCII '0'..'9'. -/
def is_digit (c : Nat) : Bool := 48 ≤ c && c ≤ 57

/-- Modelled from the spec: Genode util `digit` (not under src/), the value
of an ASCII decimal digit. -/
def digit (c : Nat) : Nat := c - 48

/-- `Session_component::_read_number`: polls characters, accumulating decimal
digits into an `unsigned` value (wrapping modulo 2 ^ 32), and returns the
first non-digit character together with the accumulated value and the
remaining input.  `none` models the busy-wait in `_poll_char` never
returning because the driver input is exhausted. -/
def read_number : List Nat → Nat → Option (Nat × Nat × List Nat)
  | [], _ => none
  | c :: rest, acc =>
    if is_digit c then read_number rest ((acc * 10 + digit c) % UINT_MOD)
    else some (c, acc, rest)

/-- The flush loop of `_detect_size`
(`for (; _driver.char_avail(); _driver.get_char());`): discards every
currently available character, leaving an empty receive queue. -/
def flush_input : List Nat → List Nat
  | [] => []
  | _ :: rest => flush_input rest

/-- Bytes of the probe `"\x1b[1;199r\x1b[199;255H"` sent by `_detect_size`
before flushing stale input. -/
def probe_cursor : List Nat :=
  [27, 91, 49, 59, 49, 57, 57, 114, 27, 91, 49, 57, 57, 59, 50, 53, 53, 72]

/-- Bytes of the cursor-position request `"\x1b[6n"` sent by `_detect_size`
after flushing stale input. -/
def probe_report : List Nat := [27, 91, 54, 110]

/-- The parsing phase of `Session_component::_detect_size`, applied to the
characters the driver delivers after the cursor-position request: expects
ESC (27), then a left bracket (91), then a number terminated by a
semicolon (59), then a number terminated by the letter R (82); on this exact
grammar it returns `Size(width, height)`, on any mismatch `Size(0, 0)`, and
`none` when the input is exhausted before a decision (the busy-wait in
`_poll_char` never returns). -/
def detect_size_parse (input : List Nat) : Option Size :=
  match input with
  | [] => none
  | c1 :: r1 =>
    if c1 = 27 then
      match r1 with
      | [] => none
      | c2 :: r2 =>
        if c2 = 91 then
          match read_number r2 0 with
          | none => none
          | some (t1, height, r3) =>
            if t1 = 59 then
              match read_number r3 0 with
              | none => none
              | some (t2, width, _) =>
                if t2 = 82 then some ⟨width, height⟩ else some ⟨0, 0⟩
            else some ⟨0, 0⟩
        else some ⟨0, 0⟩
    else some ⟨0, 0⟩

/-- `Session_component::_detect_size`: sends the cursor probe, flushes the
stale characters available at that moment, sends the report request and
parses the response that arrives afterwards.  The receive queue seen by the
parser is whatever the flush left over followed by the response bytes. -/
def detect_size (stale response : List Nat) : Option Size :=
  detect_size_parse (flush_input stale ++ response)

/-- Value of a digit string under the accumulating fold of `_read_number`. -/
def numval (ds : List Nat) : Nat :=
  ds.foldl (fun a c => (a * 10 + digit c) % UINT_MOD) 0

/-- The cursor-report grammar together with the size `_detect_size` extracts
from it: ESC, a bracket, a (possibly empty) digit run giving the height, a
semicolon, a (possibly empty) digit run giving the width, the letter R, and
arbitrary unread trailing bytes. -/
def GrammarOutput (input : List Nat) (s : Size) : Prop :=
  ∃ hd wd rest, input = 27 :: 91 :: (hd ++ 59 :: (wd ++ 82 :: rest)) ∧
    hd.all is_digit = true ∧ wd.all is_digit = true ∧
    s = ⟨numval wd, numval hd⟩

/-- The inputs on which `_detect_size` busy-waits forever: the driver stopped
delivering characters before the parser reached the ESC check, the bracket
check, the end of the first number or the end of the second number. -/
def AwaitsMoreInput (input : List Nat) : Prop :=
  input = [] ∨ input = [27] ∨
  (∃ ds, input = 27 :: 91 :: ds ∧ ds.all is_digit = true) ∨
  (∃ hd wd, input = 27 :: 91 :: (hd ++ 59 :: wd) ∧
    hd.all is_digit = true ∧ wd.all is_digit = true)

/-- `Driver::char_avail` on the modelled receive queue. -/
def char_avail (rx : List Nat) : Bool := !rx.isEmpty

/-- The busy-wait loop of `_poll_char` over a temporal view of the driver:
`rx t` is the character the driver offers at spin iteration `t` (or `none`).
The fuel argument bounds the number of iterations observed; exhausting it
yields `none`, meaning the loop has not returned within that many spins. -/
def poll_char_fuel (rx : Nat → Option Nat) : Nat → Nat → Option Nat
  | 0, _ => none
  | fuel + 1, t =>
    match rx t with
    | some c => some c
    | none => poll_char_fuel rx fuel (t + 1)

/-- The copy loop of `Session_component::_read`
(`while ((n < sz) && _driver.char_avail()) io_buf[n++] = _driver.get_char();`):
first component is the list of characters stored into the I/O buffer, second
the remaining receive queue. -/
def read_loop : Nat → List Nat → List Nat × List Nat
  | 0, rx => ([], rx)
  | _ + 1, [] => ([], [])
  | k + 1, c :: rx =>
    let p := read_loop k rx
    (c :: p.1, p.2)

/-- `Session_component::_read`: clamps the requested length to the I/O buffer
size, copies characters from the driver while available, and returns the
count copied, the bytes written into the I/O buffer and the remaining
receive queue. -/
def Session_read (dst_len : Nat) (rx : List Nat) : Nat × List Nat × List Nat :=
  let sz := min dst_len IO_BUFFER_SIZE
  let p := read_loop sz rx
  (p.1.length, p.1, p.2)

/-- The transmit loop of `Session_component::_write`
(`for (i = 0; i < num_bytes; i++) _driver.put_char(io_buf[i]);`): the list of
characters handed to the driver, in order, reading the I/O buffer at indices
`i` up to `n`. -/
def write_loop (io_buf : Nat → Nat) (i n : Nat) : List Nat :=
  if i < n then io_buf i :: write_loop io_buf (i + 1) n else []
termination_by n - i
decreasing_by omega

/-- `Session_component::_write`: clamps `num_bytes` to the I/O buffer size and
transfers that many characters from the I/O buffer to the driver; the result
is the sequence of `put_char` arguments (the operation returns nothing and
raises no error). -/
def Session_write (num_bytes : Nat) (io_buf : Nat → Nat) : List Nat :=
  write_loop io_buf 0 (min num_bytes IO_BUFFER_SIZE)

/-- Opaque notification target (a valid `Signal_context_capability`). -/
def Target : Type := Nat

/-- Session state visible to the client-facing operations: the size computed
once at construction, the driver baud rate, and the stored read-avail
signal handler (`none` models an invalid capability, the initial state). -/
structure SessionState where
  size : Size
  baud : Nat
  sigh : Option Target

/-- `Char_avail_callback::operator()`: submits a signal to the stored handler
when it is valid; the result lists the notifications fired. -/
def char_avail_callback (sigh : Option Target) : List Target :=
  match sigh with
  | some t => [t]
  | none => []

/-- `Session_component::baud_rate`: forwards the new rate to the driver. -/
def Session_baud_rate (s : SessionState) (bits : Nat) : SessionState :=
  { s with baud := bits }

/-- `Session_component::size`: returns the stored `_size`. -/
def Session_size (s : SessionState) : Size := s.size

/-- `Session_component::connected_sigh`: submits one signal to the given
target unconditionally; state is untouched. -/
def connected_sigh (s : SessionState) (t : Target) : SessionState × List Target :=
  (s, [t])

/-- Repeated invocations of `connected_sigh`, collecting all notifications
fired across the whole call sequence. -/
def connected_sigh_many (s : SessionState) (ts : List Target) : SessionState × List Target :=
  ts.foldl (fun acc t =>
    let r := connected_sigh acc.1 t
    (r.1, acc.2 ++ r.2)) (s, [])

/-- `Session_component::read_avail_sigh`: stores the new handler, then, if the
driver currently has a character available, invokes the char-avail callback;
returns the new state and the notifications fired during the call. -/
def read_avail_sigh (s : SessionState) (cap : Option Target) (avail : Bool) :
    SessionState × List Target :=
  let s1 : SessionState := { s with sigh := cap }
  (s1, if avail then char_avail_callback s1.sigh else [])

/-- A client-facing session operation that touches session state. -/
inductive SessionOp where
  | baudRate (bits : Nat)
  | readAvailSigh (cap : Option Target) (avail : Bool)
  | connectedSigh (t : Target)

/-- State transition of one session operation. -/
def apply_op (s : SessionState) : SessionOp → SessionState
  | SessionOp.baudRate bits => Session_baud_rate s bits
  | SessionOp.readAvailSigh cap avail => (read_avail_sigh s cap avail).1
  | SessionOp.connectedSigh t => (connected_sigh s t).1

/-- The `Session_component` constructor: `_size` is the detection result when
`detect_size` is requested and `Size(0, 0)` otherwise; `none` models a
construction that never finishes because `_detect_size` busy-waits forever. -/
def mkSession (detect : Bool) (baudrate : Nat) (stale response : List Nat) :
    Option SessionState :=
  match (if detect then detect_size stale response else some ⟨0, 0⟩) with
  | none => none
  | some sz => some { size := sz, baud := baudrate, sigh := none }

/-- Session-creation failure: `Root::Unavailable`. -/
inductive CreateError where
  | Unavailable
deriving DecidableEq

/-- Modelled from the spec: a policy rule (`<policy>` node matched by
`Session_policy`, not under src/) with its `uart`, `baudrate` and
`detect_size` attributes; `none` models an absent attribute. -/
structure PolicyRule where
  uart : Option Nat
  baudrate : Option Nat
  detect_size : Option String
deriving DecidableEq

/-- Arguments with which `Uart::Root::_create_session` constructs the
`Session_component`; constructing this value models allocating the session,
its I/O buffer and its driver. -/
structure SessionCfg where
  index : Nat
  baudrate : Nat
  detect : Bool
deriving DecidableEq

/-- `Uart::Root::_create_session`.  The policy set is modelled from the spec
(`Session_policy` is not under src/) as a partial map from identity labels to
rules: no matching rule throws `No_policy_defined`, an absent `uart`
attribute throws `Xml_node::Nonexistent_attribute`, and both handlers
rethrow `Root::Unavailable`; absent `baudrate` defaults to 0 and absent
`detect_size` to false, `detect_size` is true exactly when the attribute
value is the string yes. -/
def create_session (policy : String → Option PolicyRule) (label : String) :
    Except CreateError SessionCfg :=
  match policy label with
  | none => Except.error CreateError.Unavailable
  | some rule =>
    match rule.uart with
    | none => Except.error CreateError.Unavailable
    | some index =>
      Except.ok
        { index := index
          baudrate := rule.baudrate.getD 0
          detect :=
            match rule.detect_size with
            | some v => v == "yes"
            | none => false }

/-- Number of drivers obtained from the driver factory by a session-creation
attempt: the `Session_component` constructor acquires exactly one, and it
runs only on the success path. -/
def drivers_created : Except CreateError SessionCfg → Nat
  | Except.error _ => 0
  | Except.ok _ => 1

/-- Number of I/O buffers allocated by a session-creation attempt: the
`Session_component` constructor allocates exactly one, and it runs only on
the success path. -/
def io_buffers_created : Except CreateError SessionCfg → Nat
  | Except.error _ => 0
  | Except.ok _ => 1

/-- `Driver::get_char` instrumented with its precondition: calling it on an
empty receive queue (no character available) is the undefined behaviour the
driver contract forbids, recorded as `Except.error`. -/
def get_char_chk : List Nat → Except Unit (Nat × List Nat)
  | [] => Except.error ()
  | c :: rest => Except.ok (c, rest)

/-- `_poll_char` over the queue model, instrumented: the busy-wait spins until
`char_avail` holds (never returning — `none` — on an exhausted queue) and
only then calls `get_char`. -/
def poll_char_chk (rx : List Nat) : Option (Except Unit (Nat × List Nat)) :=
  if char_avail rx then some (get_char_chk rx) else none

/-- The flush loop of `_detect_size`, instrumented: each iteration tests
`char_avail` and only on success calls `get_char`. -/
def flush_chk : List Nat → Except Unit (List Nat)
  | [] => Except.ok []
  | c :: rest =>
    if char_avail (c :: rest) then
      match get_char_chk (c :: rest) with
      | Except.error e => Except.error e
      | Except.ok _ => flush_chk rest
    else Except.ok (c :: rest)

/-- The copy loop of `_read`, instrumented: each iteration tests the counter
bound and `char_avail`, and only on success calls `get_char`. -/
def read_loop_chk : Nat → List Nat → Except Unit (List Nat × List Nat)
  | 0, rx => Except.ok ([], rx)
  | k + 1, rx =>
    if char_avail rx then
      match get_char_chk rx with
      | Except.error e => Except.error e
      | Except.ok (c, rest) =>
        match read_loop_chk k rest with
        | Except.error e => Except.error e
        | Except.ok (buf, rem) => Except.ok (c :: buf, rem)
    else Except.ok ([], rx)

/-! ### Helper lemmas -/

theorem flush_input_eq_nil (rx : List Nat) : flush_input rx = [] := by
  induction rx with
  | nil => rfl
  | cons c rest ih => simpa [flush_input] using ih

theorem read_number_digits_append (ds : List Nat) (t : Nat) (rest : List Nat)
    (hds : ds.all is_digit = true) (ht : is_digit t = false) :
    ∀ acc, read_number (ds ++ t :: rest) acc =
      some (t, ds.foldl (fun a c => (a * 10 + digit c) % UINT_MOD) acc, rest) := by
  induction ds with
  | nil =>
    intro acc
    simp [read_number, ht]
  | cons d ds ih =>
    intro acc
    simp only [List.all_cons, Bool.and_eq_true] at hds
    simp [read_number, hds.1, ih hds.2]

theorem read_number_none_iff (input : List Nat) :
    ∀ acc, (read_number input acc = none ↔ input.all is_digit = true) := by
  induction input with
  | nil =>
    intro acc
    simp [read_number]
  | cons c rest ih =>
    intro acc
    by_cases hc : is_digit c = true
    · simp [read_number, hc, ih]
    · simp only [Bool.not_eq_true] at hc
      simp [read_number, hc]

theorem read_number_ok_inv (input : List Nat) :
    ∀ acc t v rest, read_number input acc = some (t, v, rest) →
      ∃ ds, input = ds ++ t :: rest ∧ ds.all is_digit = true ∧
        is_digit t = false ∧
        v = ds.foldl (fun a c => (a * 10 + digit c) % UINT_MOD) acc := by
  induction input with
  | nil =>
    intro acc t v rest h
    simp [read_number] at h
  | cons c tl ih =>
    intro acc t v rest h
    by_cases hc : is_digit c = true
    · simp only [read_number, hc, if_true] at h
      obtain ⟨ds, h1, h2, h3, h4⟩ := ih _ _ _ _ h
      refine ⟨c :: ds, by simp [h1], ?_, h3, by simp [h4]⟩
      simp [hc, h2]
    · simp only [Bool.not_eq_true] at hc
      simp only [read_number, hc, Bool.false_eq_true, if_false, Option.some.injEq,
        Prod.mk.injEq] at h
      obtain ⟨h1, h2, h3⟩ := h
      subst h1
      subst h3
      exact ⟨[], rfl, rfl, hc, h2.symm⟩

theorem detect_size_parse_grammar (hd wd rest : List Nat)
    (h1 : hd.all is_digit = true) (h2 : wd.all is_digit = true) :
    detect_size_parse (27 :: 91 :: (hd ++ 59 :: (wd ++ 82 :: rest))) =
      some ⟨numval wd, numval hd⟩ := by
  have e1 := read_number_digits_append hd 59 (wd ++ 82 :: rest) h1 (by decide) 0
  have e2 := read_number_digits_append wd 82 rest h2 (by decide) 0
  simp [detect_size_parse, e1, e2, numval]

theorem detect_size_parse_cases (input : List Nat) :
    detect_size_parse input = none ∨ detect_size_parse input = some ⟨0, 0⟩ ∨
    ∃ s, GrammarOutput input s ∧ detect_size_parse input = some s := by
  match input with
  | [] => exact Or.inl rfl
  | c1 :: r1 =>
    by_cases hc1 : c1 = 27
    case neg =>
      exact Or.inr (Or.inl (by simp [detect_size_parse, hc1]))
    subst hc1
    match r1 with
    | [] => exact Or.inl rfl
    | c2 :: r2 =>
      by_cases hc2 : c2 = 91
      case neg =>
        exact Or.inr (Or.inl (by simp [detect_size_parse, hc2]))
      subst hc2
      cases hrn : read_number r2 0 with
      | none => exact Or.inl (by simp [detect_size_parse, hrn])
      | some p =>
        obtain ⟨t1, height, r3⟩ := p
        by_cases ht1 : t1 = 59
        case neg =>
          exact Or.inr (Or.inl (by simp [detect_size_parse, hrn, ht1]))
        subst ht1
        cases hrn2 : read_number r3 0 with
        | none => exact Or.inl (by simp [detect_size_parse, hrn, hrn2])
        | some q =>
          obtain ⟨t2, width, r4⟩ := q
          by_cases ht2 : t2 = 82
          case neg =>
            exact Or.inr (Or.inl (by simp [detect_size_parse, hrn, hrn2, ht2]))
          subst ht2
          refine Or.inr (Or.inr ?_)
          obtain ⟨ds1, hds1, hall1, hnd1, hv1⟩ := read_number_ok_inv r2 0 59 height r3 hrn
          obtain ⟨ds2, hds2, hall2, hnd2, hv2⟩ := read_number_ok_inv r3 0 82 width r4 hrn2
          refine ⟨⟨width, height⟩, ⟨ds1, ds2, r4, ?_, hall1, hall2, ?_⟩, ?_⟩
          · rw [hds1, hds2]
          · simp [numval, hv1, hv2]
          · simp [detect_size_parse, hrn, hrn2]

theorem detect_size_parse_none_iff (input : List Nat) :
    detect_size_parse input = none ↔ AwaitsMoreInput input := by
  constructor
  · intro h
    match input with
    | [] => exact Or.inl rfl
    | c1 :: r1 =>
      by_cases hc1 : c1 = 27
      case neg => simp [detect_size_parse, hc1] at h
      subst hc1
      match r1 with
      | [] => exact Or.inr (Or.inl rfl)
      | c2 :: r2 =>
        by_cases hc2 : c2 = 91
        case neg => simp [detect_size_parse, hc2] at h
        subst hc2
        cases hrn : read_number r2 0 with
        | none =>
          exact Or.inr (Or.inr (Or.inl ⟨r2, rfl, (read_number_none_iff r2 0).1 hrn⟩))
        | some p =>
          obtain ⟨t1, height, r3⟩ := p
          by_cases ht1 : t1 = 59
          case neg => simp [detect_size_parse, hrn, ht1] at h
          subst ht1
          cases hrn2 : read_number r3 0 with
          | none =>
            obtain ⟨ds1, hds1, hall1, hnd1, hv1⟩ := read_number_ok_inv r2 0 59 height r3 hrn
            refine Or.inr (Or.inr (Or.inr ⟨ds1, r3, ?_, hall1,
              (read_number_none_iff r3 0).1 hrn2⟩))
            rw [hds1]
          | some q =>
            obtain ⟨t2, width, r4⟩ := q
            by_cases ht2 : t2 = 82
            · subst ht2
              simp [detect_size_parse, hrn, hrn2] at h
            · simp [detect_size_parse, hrn, hrn2, ht2] at h
  · intro h
    rcases h with h | h | ⟨ds, h, hall⟩ | ⟨hd, wd, h, hh, hw⟩
    · subst h; rfl
    · subst h; rfl
    · subst h
      have hn := (read_number_none_iff ds 0).2 hall
      simp [detect_size_parse, hn]
    · subst h
      have e1 := read_number_digits_append hd 59 wd hh (by decide) 0
      have hn := (read_number_none_iff wd 0).2 hw
      simp [detect_size_parse, e1, hn]

theorem read_loop_eq (sz : Nat) : ∀ rx : List Nat,
    read_loop sz rx = (rx.take sz, rx.drop sz) := by
  induction sz with
  | zero => intro rx; simp [read_loop]
  | succ k ih =>
    intro rx
    cases rx with
    | nil => simp [read_loop]
    | cons c tl => simp [read_loop, ih]

theorem write_loop_eq_aux (io_buf : Nat → Nat) :
    ∀ k n i, n - i = k → write_loop io_buf i n = (List.range' i k).map io_buf := by
  intro k
  induction k with
  | zero =>
    intro n i h
    rw [write_loop]
    have hni : ¬ i < n := by omega
    simp [hni]
  | succ k ih =>
    intro n i h
    have hlt : i < n := by omega
    rw [write_loop]
    simp only [hlt, if_true]
    rw [ih n (i + 1) (by omega)]
    simp [List.range']

theorem range'_map_getD (f : Nat → Nat) :
    ∀ m i k, k < m → ((List.range' i m).map f).getD k 0 = f (i + k) := by
  intro m
  induction m with
  | zero => intro i k h; omega
  | succ m ih =>
    intro i k h
    cases k with
    | zero => simp [List.range']
    | succ k =>
      have hk := ih (i + 1) k (by omega)
      simp only [List.range', List.map_cons, List.getD_cons_succ]
      rw [hk]
      congr 1
      omega

theorem foldl_connected_aux (ts : List Target) :
    ∀ s acc, ts.foldl (fun a t =>
      let r := connected_sigh a.1 t
      (r.1, a.2 ++ r.2)) (s, acc) = (s, acc ++ ts) := by
  induction ts with
  | nil => intro s acc; simp
  | cons t ts ih =>
    intro s acc
    rw [List.foldl_cons]
    exact (ih s (acc ++ [t])).trans (by simp)

theorem apply_op_size (s : SessionState) (op : SessionOp) :
    Session_size (apply_op s op) = Session_size s := by
  cases op <;> rfl

theorem flush_chk_ok (rx : List Nat) : flush_chk rx = Except.ok [] := by
  induction rx with
  | nil => rfl
  | cons c rest ih => simp [flush_chk, char_avail, get_char_chk, ih]

theorem read_loop_chk_ok (k : Nat) : ∀ rx : List Nat,
    read_loop_chk k rx = Except.ok (read_loop k rx) := by
  induction k with
  | zero => intro rx; rfl
  | succ k ih =>
    intro rx
    cases rx with
    | nil => rfl
    | cons c tl => simp [read_loop_chk, read_loop, char_avail, get_char_chk, ih]

/-! ### Claim theorems -/

/-- C1 counterexample: the response ESC, bracket, 1, semicolon, 1, R differs
from the exact stream ESC, bracket, 2, 4, semicolon, 8, 0, R, yet
`_detect_size` returns `Size(1, 1)`, not `Size(0, 0)`, refuting the claim
that every other input byte sequence yields `Size(0, 0)`. -/
theorem detect_size_other_sequence_nonzero :
    detect_size [] [27, 91, 49, 59, 49, 82] = some ⟨1, 1⟩ ∧
    ([27, 91, 49, 59, 49, 82] : List Nat) ≠ [27, 91, 50, 52, 59, 56, 48, 82] ∧
    (⟨1, 1⟩ : Size) ≠ (⟨0, 0⟩ : Size) := by
  refine ⟨by decide, by decide, by decide⟩

/-- C1 (amended): after the probe sequence is sent, the exact input stream
ESC, bracket, 2, 4, semicolon, 8, 0, R makes `_detect_size` return
`Size(80, 24)`; any response matching the cursor-report grammar makes it
return the parsed `Size(width, height)`; and a response not matching the
grammar makes it return `Size(0, 0)` at the first mismatching check, or
busy-wait forever if the stream ends before a decision. -/
theorem detect_size_grammar_spec :
    detect_size [] [27, 91, 50, 52, 59, 56, 48, 82] = some ⟨80, 24⟩ ∧
    (∀ stale response s, GrammarOutput response s →
      detect_size stale response = some s) ∧
    (∀ stale response, ¬ (∃ s, GrammarOutput response s) →
      detect_size stale response = some ⟨0, 0⟩ ∨
      detect_size stale response = none) := by
  refine ⟨by decide, ?_, ?_⟩
  · intro stale response s hg
    obtain ⟨hd, wd, rest, heq, h1, h2, hs⟩ := hg
    rw [detect_size, flush_input_eq_nil, List.nil_append, heq, hs]
    exact detect_size_parse_grammar hd wd rest h1 h2
  · intro stale response hng
    rw [detect_size, flush_input_eq_nil, List.nil_append]
    rcases detect_size_parse_cases response with h | h | ⟨s, hg, _⟩
    · exact Or.inr h
    · exact Or.inl h
    · exact absurd ⟨s, hg⟩ hng

/-- Witness for the amended C1 theorem at concrete inputs: the grammar case
at the response ESC, bracket, 1, semicolon, 1, R and the mismatch case at
the single byte 65. -/
theorem detect_size_grammar_spec_witness :
    detect_size [] [27, 91, 49, 59, 49, 82] = some ⟨1, 1⟩ ∧
    (detect_size [] [65] = some ⟨0, 0⟩ ∨ detect_size [] [65] = none) := by
  constructor
  · exact detect_size_grammar_spec.2.1 [] [27, 91, 49, 59, 49, 82] ⟨1, 1⟩
      ⟨[49], [49], [], rfl, by decide, by decide, by decide⟩
  · exact detect_size_grammar_spec.2.2 [] [65]
      (by rintro ⟨s, hd, wd, rest, heq, _⟩; simp at heq)

/-- C2: `_read` returns a count at most `min(dst_len, 4096)`, equal to the
minimum of that clamp and the number of characters the driver has, copies
exactly that prefix of the driver stream into the I/O buffer in order, and
returns fewer than requested whenever the driver runs out of characters
before the clamp is reached. -/
theorem Session_read_spec (dst_len : Nat) (rx : List Nat) :
    (Session_read dst_len rx).1 ≤ min dst_len IO_BUFFER_SIZE ∧
    (Session_read dst_len rx).1 = min (min dst_len IO_BUFFER_SIZE) rx.length ∧
    (Session_read dst_len rx).2.1 = rx.take (min dst_len IO_BUFFER_SIZE) ∧
    (Session_read dst_len rx).2.2 = rx.drop (min dst_len IO_BUFFER_SIZE) ∧
    (rx.length < min dst_len IO_BUFFER_SIZE →
      (Session_read dst_len rx).1 = rx.length ∧
      (Session_read dst_len rx).1 < dst_len) := by
  have hr := read_loop_eq (min dst_len IO_BUFFER_SIZE) rx
  refine ⟨?_, ?_, ?_, ?_, ?_⟩
  · simp [Session_read, hr, List.length_take]
  · simp [Session_read, hr, List.length_take]
  · simp [Session_read, hr]
  · simp [Session_read, hr]
  · intro hlen
    have h1 : (Session_read dst_len rx).1 = rx.length := by
      simp [Session_read, hr, List.length_take]
      omega
    refine ⟨h1, ?_⟩
    rw [h1]
    omega

/-- Witness for the C2 theorem: reading two bytes from a driver holding a
single byte copies that one byte and returns fewer than requested. -/
theorem Session_read_spec_witness :
    (Session_read 2 [7]).1 = 1 ∧ (Session_read 2 [7]).1 < 2 := by
  have h := (Session_read_spec 2 [7]).2.2.2.2 (by decide)
  simpa using h

/-- C3: `_write` hands exactly `min(num_bytes, 4096)` characters to the
driver, namely the I/O buffer contents at indices 0 up to that clamp in
their original order with none dropped, silently truncating larger requests
and producing no error and no return value. -/
theorem Session_write_spec (num_bytes : Nat) (io_buf : Nat → Nat) :
    Session_write num_bytes io_buf =
      (List.range (min num_bytes IO_BUFFER_SIZE)).map io_buf ∧
    (Session_write num_bytes io_buf).length = min num_bytes IO_BUFFER_SIZE ∧
    (∀ k, k < min num_bytes IO_BUFFER_SIZE →
      (Session_write num_bytes io_buf).getD k 0 = io_buf k) ∧
    (IO_BUFFER_SIZE ≤ num_bytes →
      (Session_write num_bytes io_buf).length = IO_BUFFER_SIZE) := by
  have he : Session_write num_bytes io_buf =
      (List.range' 0 (min num_bytes IO_BUFFER_SIZE)).map io_buf := by
    rw [Session_write]
    exact write_loop_eq_aux io_buf (min num_bytes IO_BUFFER_SIZE)
      (min num_bytes IO_BUFFER_SIZE) 0 (by omega)
  have hrange : List.range (min num_bytes IO_BUFFER_SIZE) =
      List.range' 0 (min num_bytes IO_BUFFER_SIZE) := List.range_eq_range' _
  refine ⟨by rw [he, hrange], by simp [he], ?_, ?_⟩
  · intro k hk
    rw [he]
    have h := range'_map_getD io_buf (min num_bytes IO_BUFFER_SIZE) 0 k hk
    simpa using h
  · intro hge
    simp [he]
    omega

/-- Witness for the C3 theorem: writing two bytes transfers the buffer byte
at index 0 first. -/
theorem Session_write_spec_witness :
    (Session_write 2 (fun k => k + 65)).getD 0 0 = 65 := by
  have h := (Session_write_spec 2 (fun k => k + 65)).2.2.1 0 (by decide)
  simpa using h

/-- C4: `_create_session` fails with `Root::Unavailable` when no policy rule
matches the label or when the matching rule lacks the `uart` attribute, and
on those paths constructs no session, no driver and no I/O buffer; when
`uart` is present the session is constructed even if `baudrate` and
`detect_size` are absent, with defaults 0 and false. -/
theorem create_session_spec (policy : String → Option PolicyRule) (label : String) :
    (policy label = none →
      create_session policy label = Except.error CreateError.Unavailable ∧
      drivers_created (create_session policy label) = 0 ∧
      io_buffers_created (create_session policy label) = 0) ∧
    (∀ rule, policy label = some rule → rule.uart = none →
      create_session policy label = Except.error CreateError.Unavailable ∧
      drivers_created (create_session policy label) = 0 ∧
      io_buffers_created (create_session policy label) = 0) ∧
    (∀ rule index, policy label = some rule → rule.uart = some index →
      create_session policy label = Except.ok
        { index := index
          baudrate := rule.baudrate.getD 0
          detect :=
            match rule.detect_size with
            | some v => v == "yes"
            | none => false }) := by
  refine ⟨?_, ?_, ?_⟩
  · intro h
    simp [create_session, h, drivers_created, io_buffers_created]
  · intro rule h hu
    simp [create_session, h, hu, drivers_created, io_buffers_created]
  · intro rule index h hu
    simp [create_session, h, hu]

/-- Witness for the C4 theorem: an empty policy set refuses a concrete label
with `Unavailable` and allocates nothing. -/
theorem create_session_spec_witness :
    create_session (fun _ => none) "client" = Except.error CreateError.Unavailable ∧
    drivers_created (create_session (fun _ => none) "client") = 0 ∧
    io_buffers_created (create_session (fun _ => none) "client") = 0 :=
  (create_session_spec (fun _ => none) "client").1 rfl

/-- C5: `read_avail_sigh` stores the handler; when the driver has a character
available at the moment of the call it fires one notification to the new
target within that same call, and when none is available it fires nothing. -/
theorem read_avail_sigh_spec (s : SessionState) (t : Target) (cap : Option Target) :
    read_avail_sigh s (some t) true = ({ s with sigh := some t }, [t]) ∧
    read_avail_sigh s cap false = ({ s with sigh := cap }, []) :=
  ⟨rfl, rfl⟩

/-- C6: `size()` always returns the value stored at construction: no sequence
of session operations (in particular no sequence of `baud_rate` calls)
changes it, a construction without detection stores `Size(0, 0)`, and a
construction with detection stores exactly the detection result. -/
theorem size_frame_spec :
    (∀ (s : SessionState) (ops : List SessionOp),
      Session_size (ops.foldl apply_op s) = Session_size s) ∧
    (∀ baudrate stale response,
      mkSession false baudrate stale response =
        some { size := ⟨0, 0⟩, baud := baudrate, sigh := none }) ∧
    (∀ baudrate stale response,
      mkSession true baudrate stale response =
        (detect_size stale response).map
          (fun sz => { size := sz, baud := baudrate, sigh := none })) := by
  refine ⟨?_, ?_, ?_⟩
  · intro s ops
    induction ops generalizing s with
    | nil => rfl
    | cons op ops ih =>
      rw [List.foldl_cons, ih (apply_op s op), apply_op_size]
  · intro baudrate stale response
    rfl
  · intro baudrate stale response
    cases h : detect_size stale response <;> simp [mkSession, h]

/-- C7: `connected_sigh` fires exactly one notification to the given target
on every invocation, unconditionally, without changing session state, and
every call of an arbitrary call sequence does the same. -/
theorem connected_sigh_spec :
    (∀ (s : SessionState) (t : Target), connected_sigh s t = (s, [t])) ∧
    (∀ (s : SessionState) (ts : List Target),
      connected_sigh_many s ts = (s, ts)) := by
  refine ⟨fun s t => rfl, fun s ts => ?_⟩
  have h := foldl_connected_aux ts s []
  simpa [connected_sigh_many] using h

/-- C8: the `_poll_char` busy-wait has no timeout: on a driver that never
reports a character it returns within no number of iterations; consequently
`_detect_size` with an empty response never terminates, and it fails to
terminate exactly on the inputs where the stream ends before the grammar
reaches a match or a mismatch. -/
theorem detect_size_no_timeout_spec :
    (∀ rx : Nat → Option Nat, (∀ t, rx t = none) →
      ∀ fuel t0, poll_char_fuel rx fuel t0 = none) ∧
    (∀ stale, detect_size stale [] = none) ∧
    (∀ response, detect_size_parse response = none ↔ AwaitsMoreInput response) := by
  refine ⟨?_, ?_, detect_size_parse_none_iff⟩
  · intro rx h fuel
    induction fuel with
    | zero => intro t0; rfl
    | succ k ih =>
      intro t0
      simp [poll_char_fuel, h t0, ih]
  · intro stale
    rw [detect_size, flush_input_eq_nil]
    rfl

/-- Witness for the C8 theorem: a driver that never delivers leaves the
busy-wait unreturned after five iterations. -/
theorem detect_size_no_timeout_spec_witness :
    poll_char_fuel (fun _ => none) 5 0 = none :=
  detect_size_no_timeout_spec.1 (fun _ => none) (fun _ => rfl) 5 0

/-- C9: every `get_char` the component issues is guarded by a `char_avail`
check that just returned true: the instrumented `_poll_char`, the
instrumented flush loop of `_detect_size` and the instrumented copy loop of
`_read` never reach the error that marks a `get_char` on an empty queue. -/
theorem get_char_guarded_spec :
    (∀ (rx : List Nat) (r : Except Unit (Nat × List Nat)),
      poll_char_chk rx = some r → ∃ v, r = Except.ok v) ∧
    (∀ rx : List Nat, ∃ v, flush_chk rx = Except.ok v) ∧
    (∀ (k : Nat) (rx : List Nat), ∃ v, read_loop_chk k rx = Except.ok v) := by
  refine ⟨?_, fun rx => ⟨[], flush_chk_ok rx⟩,
    fun k rx => ⟨read_loop k rx, read_loop_chk_ok k rx⟩⟩
  intro rx r h
  cases rx with
  | nil => simp [poll_char_chk, char_avail] at h
  | cons c tl =>
    simp [poll_char_chk, char_avail, get_char_chk] at h
    exact ⟨(c, tl), h.symm⟩

/-- Witness for the C9 theorem: polling a one-byte queue yields a successful
`get_char` result. -/
theorem get_char_guarded_spec_witness :
    ∃ v, (Except.ok ((7 : Nat), ([] : List Nat)) : Except Unit (Nat × List Nat)) =
      Except.ok v :=
  get_char_guarded_spec.1 [7] (Except.ok (7, []))
    (by simp [poll_char_chk, char_avail, get_char_chk])

/-- C10: `_read_number` accepts an empty digit run, returning the first
polled non-digit with result 0, so `_detect_size` treats a report with an
empty height field as matching the grammar: the response ESC, bracket,
semicolon, 8, 0, R yields `Size(80, 0)` through the success path rather than
the failure value `Size(0, 0)`. -/
theorem read_number_empty_run_partial_size :
    read_number [59, 56, 48, 82] 0 = some (59, 0, [56, 48, 82]) ∧
    detect_size [] [27, 91, 59, 56, 48, 82] = some ⟨80, 0⟩ ∧
    (⟨80, 0⟩ : Size) ≠ (⟨0, 0⟩ : Size) := by
  refine ⟨by decide, by decide, by decide⟩

end Uart
